import Mathlib

/-!
Shallow embedding of the CHIP-8 interpreter core from
`src/chip8_core/src/lib.rs` (struct `Emulator` and its methods).

Modelling conventions:
* Machine integers (`u8`, `u16`) are `Nat` with explicit `% 256` / `% 65536`
  at the operations where Rust wraps (`wrapping_add`, release-mode `+=`/`-=`
  overflow, `<<=` on `u8`).
* Rust fixed-size arrays become Lean lists; indexing is bounds-checked
  exactly as in Rust: an out-of-range index is a panic.
* A Rust panic (out-of-bounds indexing, the `unimplemented!` macro) aborts
  the process; it is modelled by the `Except` error channel `PanicKind`.
  An `Except.error` value therefore denotes a crash of the step, not a
  recoverable value returned to the host (the Rust methods return `()`).
* `rand::random::<u8>()` in the `C,x,nn` arm is modelled by an explicit
  oracle argument `rng` to `execute`.
-/

/-- Kind of Rust panic reached by the modelled code. -/
inductive PanicKind where
  | indexOutOfBounds
  | unimplementedOpcode
  deriving DecidableEq

/-- Bounds-checked array read, as in Rust `a[i]` on a slice/array of `u8`/`u16`:
out of range panics. -/
def readList (l : List ℕ) (i : ℕ) : Except PanicKind ℕ :=
  match l.get? i with
  | some v => .ok v
  | none => .error .indexOutOfBounds

/-- Bounds-checked array read for `bool` arrays (`display`, `keys`). -/
def readBoolList (l : List Bool) (i : ℕ) : Except PanicKind Bool :=
  match l.get? i with
  | some v => .ok v
  | none => .error .indexOutOfBounds

/-- Bounds-checked array write, as in Rust `a[i] = v`: returns the updated
list when `i` is in range and panics otherwise. -/
def writeList : List ℕ → ℕ → ℕ → Except PanicKind (List ℕ)
  | [], _, _ => .error .indexOutOfBounds
  | _ :: rest, 0, v => .ok (v :: rest)
  | a :: rest, i + 1, v => do
    let rest' ← writeList rest i v
    .ok (a :: rest')

/-- Bounds-checked array write for `bool` arrays. -/
def writeBoolList : List Bool → ℕ → Bool → Except PanicKind (List Bool)
  | [], _, _ => .error .indexOutOfBounds
  | _ :: rest, 0, v => .ok (v :: rest)
  | a :: rest, i + 1, v => do
    let rest' ← writeBoolList rest i v
    .ok (a :: rest')

/-- Rust `dst[start..start+src.len()].copy_from_slice(src)` once the slice is
known to be in bounds. -/
def copyFromSlice (dst : List ℕ) (start : ℕ) (src : List ℕ) : List ℕ :=
  dst.take start ++ src ++ dst.drop (start + src.length)

def SCREEN_WIDTH : ℕ := 64
def SCREEN_HEIGHT : ℕ := 32
def RAM_SIZE : ℕ := 4096
def NUM_REGISTERS : ℕ := 16
def STACK_SIZE : ℕ := 16
def NUM_KEYS : ℕ := 16
def START_ADDR : ℕ := 0x200
def FONTSET_SIZE : ℕ := 80

/-- The 80-byte hexadecimal glyph table (`FONTSET` in the source). -/
def FONTSET : List ℕ :=
  [0xF0, 0x90, 0x90, 0x90, 0xF0,
   0x20, 0x60, 0x20, 0x20, 0x70,
   0xF0, 0x10, 0xF0, 0x80, 0xF0,
   0xF0, 0x10, 0xF0, 0x10, 0xF0,
   0x90, 0x90, 0xF0, 0x10, 0x10,
   0xF0, 0x80, 0xF0, 0x10, 0xF0,
   0xF0, 0x80, 0xF0, 0x90, 0xF0,
   0xF0, 0x10, 0x20, 0x40, 0x40,
   0xF0, 0x90, 0xF0, 0x90, 0xF0,
   0xF0, 0x90, 0xF0, 0x10, 0xF0,
   0xF0, 0x90, 0xF0, 0x90, 0x90,
   0xE0, 0x90, 0xE0, 0x90, 0xE0,
   0xF0, 0x80, 0x80, 0x80, 0xF0,
   0xE0, 0x90, 0x90, 0x90, 0xE0,
   0xF0, 0x80, 0xF0, 0x80, 0xF0,
   0xF0, 0x80, 0xF0, 0x80, 0x80]

/-- The `Emulator` struct. Field names and order follow the source. -/
structure Emulator where
  pc : ℕ
  ram : List ℕ
  display : List Bool
  v_registers : List ℕ
  i_register : ℕ
  stack_ptr : ℕ
  stack : List ℕ
  keys : List Bool
  delay_t : ℕ
  sound_t : ℕ
  deriving DecidableEq

namespace Emulator

/-- `Emulator::new()`: zeroed state, `pc = 0x200`, fontset copied into
`ram[..FONTSET_SIZE]`. -/
def new : Emulator where
  pc := START_ADDR
  ram := copyFromSlice (List.replicate RAM_SIZE 0) 0 FONTSET
  display := List.replicate (SCREEN_WIDTH * SCREEN_HEIGHT) false
  v_registers := List.replicate NUM_REGISTERS 0
  i_register := 0
  stack_ptr := 0
  stack := List.replicate STACK_SIZE 0
  keys := List.replicate NUM_KEYS false
  delay_t := 0
  sound_t := 0

/-- `Emulator::push`: writes at the stack pointer, then increments it.
There is no overflow guard in the source; at `stack_ptr = 16` the indexing
itself panics (before any out-of-array write). -/
def push (e : Emulator) (val : ℕ) : Except PanicKind Emulator := do
  let stack' ← writeList e.stack e.stack_ptr val
  .ok { e with stack := stack', stack_ptr := (e.stack_ptr + 1) % 65536 }

/-- `Emulator::pop`: decrements the stack pointer, then reads.  There is no
underflow guard in the source; at `stack_ptr = 0` the `u16` decrement wraps to
65535 and the subsequent indexing panics. -/
def pop (e : Emulator) : Except PanicKind (ℕ × Emulator) := do
  let sp := (e.stack_ptr + 65536 - 1) % 65536
  let v ← readList e.stack sp
  .ok (v, { e with stack_ptr := sp })

/-- `Emulator::fetch`: big-endian combine of `ram[pc]` and `ram[pc+1]`,
then `pc += 2`. -/
def fetch (e : Emulator) : Except PanicKind (ℕ × Emulator) := do
  let higher_byte ← readList e.ram e.pc
  let lower_byte ← readList e.ram ((e.pc + 1) % 65536)
  let op := (higher_byte <<< 8) ||| lower_byte
  .ok (op, { e with pc := (e.pc + 2) % 65536 })

/-- `Emulator::load`: `self.ram[start..end].copy_from_slice(data)` with
`start = 0x200` and `end = start + data.len()`.  There is no capacity check in
the source: when `end` exceeds `ram.len()` the slicing expression itself
panics, before any byte is written. -/
def load (e : Emulator) (data : List ℕ) : Except PanicKind Emulator :=
  let start := START_ADDR
  let endIdx := start + data.length
  if endIdx ≤ e.ram.length then
    .ok { e with ram := copyFromSlice e.ram start data }
  else .error .indexOutOfBounds

/-- `Emulator::tick_timers`: each counter is decremented when positive
(the inner `if self.sound_t == 0` in the source is dead code with an empty
body and no effect). -/
def tick_timers (e : Emulator) : Emulator :=
  let e1 := if 0 < e.delay_t then { e with delay_t := e.delay_t - 1 } else e
  if 0 < e1.sound_t then { e1 with sound_t := e1.sound_t - 1 } else e1

/-- `Emulator::keypress`. -/
def keypress (e : Emulator) (idx : ℕ) (pressed : Bool) : Except PanicKind Emulator := do
  let keys' ← writeBoolList e.keys idx pressed
  .ok { e with keys := keys' }

end Emulator

/-!
Exact model of the `f32` arithmetic used by the BCD arm (`F,x,3,3`):

    let vx = self.v_registers[x] as f32;
    let hundreds = (vx / 100.0).floor() as u8;
    let tens = ((vx / 10.0) % 10.0).floor() as u8;
    let ones = (vx % 10.0) as u8;

Every `f32` value arising here is nonnegative and lies in `[2^(-7), 2^5)`
(or is 0), so it is an integer multiple of `2^(-30)`; we represent it by
that multiple, i.e. by its value scaled by `2^30`.  `vx as f32` is exact
(`vx < 256 < 2^24`).  IEEE-754 division is the real quotient rounded to the
nearest representable value (24-bit significand), ties to even; `f32Div`
implements exactly that rounding.  Rust `%` on `f32` is `fmod`, which is
exact on these operands, so it is plain modular arithmetic on the scaled
representatives; `floor` and the `as u8` cast (truncation toward zero of a
nonnegative in-range value) are floor division by the scale.
-/

/-- Number of binary digits of `n` (0 for 0), with explicit fuel so that the
kernel can evaluate it by structural recursion. -/
def bitlen : ℕ → ℕ → ℕ
  | 0, _ => 0
  | fuel + 1, n => if n = 0 then 0 else bitlen fuel (n / 2) + 1

/-- The scale `2^30` of the fixed-point representation of the `f32` values
used by the BCD arm. -/
def f32Scale : ℕ := 2 ^ 30

/-- IEEE binary32 division `a / b` of two exactly-representable naturals,
rounded to nearest (24-bit significand), ties to even; result scaled by
`2^30`.  Valid for the exponent range reached by the BCD arm (no overflow,
no subnormals). -/
def f32Div (a b : ℕ) : ℕ :=
  let N := a * f32Scale
  let t := N / b
  let bits := bitlen 64 t
  let u := 2 ^ (bits - 24)
  let bu := b * u
  let q := N / bu
  let r := N % bu
  let q' :=
    if 2 * r < bu then q
    else if bu < 2 * r then q + 1
    else if q % 2 = 0 then q else q + 1
  q' * u

/-- `(vx as f32 / 100.0).floor() as u8`. -/
def bcdHundreds (vx : ℕ) : ℕ := f32Div vx 100 / f32Scale

/-- `((vx as f32 / 10.0) % 10.0).floor() as u8`. -/
def bcdTens (vx : ℕ) : ℕ := f32Div vx 10 % (10 * f32Scale) / f32Scale

/-- `(vx as f32 % 10.0) as u8`. -/
def bcdOnes (vx : ℕ) : ℕ := vx * f32Scale % (10 * f32Scale) / f32Scale

/-- Inner loop of the draw-sprite arm: `for x_line in 0..8`, here presented
with the list of remaining `x_line` values.  For each set sprite bit the
wrapped pixel is read (accumulating `flipped`) and XOR-toggled. -/
def drawXLines (pixels x_cord y_cord y_line : ℕ) :
    List ℕ → List Bool → Bool → Except PanicKind (List Bool × Bool)
  | [], display, flipped => .ok (display, flipped)
  | x_line :: rest, display, flipped =>
    if pixels &&& (0b10000000 >>> x_line) ≠ 0 then do
      let x := (x_cord + x_line) % SCREEN_WIDTH
      let y := (y_cord + y_line) % SCREEN_HEIGHT
      let idx := x + SCREEN_WIDTH * y
      let cur ← readBoolList display idx
      let display' ← writeBoolList display idx (xor cur true)
      drawXLines pixels x_cord y_cord y_line rest display' (flipped || cur)
    else
      drawXLines pixels x_cord y_cord y_line rest display flipped

/-- Outer loop of the draw-sprite arm: `for y_line in 0..num_rows`, here
presented with the list of remaining `y_line` values.  Each row byte is read
from `ram[i_register + y_line]` (a `u16` addition, then a bounds-checked
read). -/
def drawYLines (i_register x_cord y_cord : ℕ) (ram : List ℕ) :
    List ℕ → List Bool → Bool → Except PanicKind (List Bool × Bool)
  | [], display, flipped => .ok (display, flipped)
  | y_line :: rest, display, flipped => do
    let addr := (i_register + y_line) % 65536
    let pixels ← readList ram addr
    let (display', flipped') ← drawXLines pixels x_cord y_cord y_line (List.range 8) display flipped
    drawYLines i_register x_cord y_cord ram rest display' flipped'

/-- `for idx in 0..=x { self.ram[i + idx] = self.v_registers[idx]; }`
(the `F,x,5,5` arm), with the list of remaining `idx` values. -/
def storeLoop (i : ℕ) (v_registers : List ℕ) :
    List ℕ → List ℕ → Except PanicKind (List ℕ)
  | [], ram => .ok ram
  | idx :: rest, ram => do
    let val ← readList v_registers idx
    let ram' ← writeList ram (i + idx) val
    storeLoop i v_registers rest ram'

/-- `for idx in 0..=x { self.v_registers[idx] = self.ram[i + idx]; }`
(the `F,x,6,5` arm), with the list of remaining `idx` values. -/
def loadLoop (i : ℕ) (ram : List ℕ) :
    List ℕ → List ℕ → Except PanicKind (List ℕ)
  | [], v_registers => .ok v_registers
  | idx :: rest, v_registers => do
    let val ← readList ram (i + idx)
    let v' ← writeList v_registers idx val
    loadLoop i ram rest v'

/-- The `for i in 0..self.keys.len()` scan with `break` of the `F,x,0,A`
arm: first pressed key index, scanning in index order. -/
def findPressed : List Bool → ℕ → Option ℕ
  | [], _ => none
  | k :: rest, i => if k then some i else findPressed rest (i + 1)

namespace Emulator

/-- `Emulator::execute`, arm for arm in source order.  `rng` is the value the
`rand::random::<u8>()` oracle returns in the `C,x,nn` arm. -/
def execute (e : Emulator) (op : ℕ) (rng : ℕ) : Except PanicKind Emulator :=
  let d1 := (op &&& 0xF000) >>> 12
  let d2 := (op &&& 0x0F00) >>> 8
  let d3 := (op &&& 0x00F0) >>> 4
  let d4 := op &&& 0x000F
  match d1, d2, d3, d4 with
  -- NOP
  | 0, 0, 0, 0 => .ok e
  -- CLS
  | 0, 0, 0xE, 0 =>
    .ok { e with display := List.replicate (SCREEN_WIDTH * SCREEN_HEIGHT) false }
  -- RET
  | 0, 0, 0xE, 0xE => do
    let (return_addr, e') ← e.pop
    .ok { e' with pc := return_addr }
  -- JMP 0xNNN
  | 1, _, _, _ =>
    let nnn := op &&& 0xFFF
    .ok { e with pc := nnn }
  -- CALL 0xNNN
  | 2, _, _, _ => do
    let nnn := op &&& 0xFFF
    let e' ← e.push e.pc
    .ok { e' with pc := nnn }
  -- opcode 3: skip when v_registers[x] == nn
  | 3, _, _, _ => do
    let x := d2
    let nn := op &&& 0xFF
    let vx ← readList e.v_registers x
    if vx = nn then .ok { e with pc := (e.pc + 2) % 65536 } else .ok e
  -- opcode 4: skip when v_registers[x] == v_registers[y]  (sic, see line 148)
  | 4, _, _, _ => do
    let x := d2
    let y := d3
    let vx ← readList e.v_registers x
    let vy ← readList e.v_registers y
    if vx = vy then .ok { e with pc := (e.pc + 2) % 65536 } else .ok e
  -- opcode 5: skip when v_registers[x] != nn  (sic, see line 156)
  | 5, _, _, 0 => do
    let x := d2
    let nn := op &&& 0xFF
    let vx ← readList e.v_registers x
    if vx ≠ nn then .ok { e with pc := (e.pc + 2) % 65536 } else .ok e
  -- VX = NN
  | 6, _, _, _ => do
    let x := d2
    let nn := op &&& 0xFF
    let v' ← writeList e.v_registers x nn
    .ok { e with v_registers := v' }
  -- VX += NN (wrapping_add)
  | 7, _, _, _ => do
    let x := d2
    let nn := op &&& 0xFF
    let vx ← readList e.v_registers x
    let v' ← writeList e.v_registers x ((vx + nn) % 256)
    .ok { e with v_registers := v' }
  -- VX = VY
  | 8, _, _, 0 => do
    let x := d2
    let y := d3
    let vy ← readList e.v_registers y
    let v' ← writeList e.v_registers x vy
    .ok { e with v_registers := v' }
  -- VX |= VY
  | 8, _, _, 1 => do
    let x := d2
    let y := d3
    let vx ← readList e.v_registers x
    let vy ← readList e.v_registers y
    let v' ← writeList e.v_registers x (vx ||| vy)
    .ok { e with v_registers := v' }
  -- VX &= VY
  | 8, _, _, 2 => do
    let x := d2
    let y := d3
    let vx ← readList e.v_registers x
    let vy ← readList e.v_registers y
    let v' ← writeList e.v_registers x (vx &&& vy)
    .ok { e with v_registers := v' }
  -- VX ^= VY
  | 8, _, _, 3 => do
    let x := d2
    let y := d3
    let vx ← readList e.v_registers x
    let vy ← readList e.v_registers y
    let v' ← writeList e.v_registers x (vx ^^^ vy)
    .ok { e with v_registers := v' }
  -- VX += VY (overflowing_add; flag written to v_registers[0xF] afterwards)
  | 8, _, _, 4 => do
    let x := d2
    let y := d3
    let vx ← readList e.v_registers x
    let vy ← readList e.v_registers y
    let new_vx := (vx + vy) % 256
    let new_vf := if 256 ≤ vx + vy then 1 else 0
    let v1 ← writeList e.v_registers x new_vx
    let v2 ← writeList v1 0xF new_vf
    .ok { e with v_registers := v2 }
  -- VX -= VY (overflowing_sub)
  | 8, _, _, 5 => do
    let x := d2
    let y := d3
    let vx ← readList e.v_registers x
    let vy ← readList e.v_registers y
    let new_vx := (vx + 256 - vy) % 256
    let new_vf := if vx < vy then 0 else 1
    let v1 ← writeList e.v_registers x new_vx
    let v2 ← writeList v1 0xF new_vf
    .ok { e with v_registers := v2 }
  -- VX >>= 1
  | 8, _, _, 6 => do
    let x := d2
    let vx ← readList e.v_registers x
    let lsb := vx &&& 1
    let v1 ← writeList e.v_registers x (vx >>> 1)
    let v2 ← writeList v1 0xF lsb
    .ok { e with v_registers := v2 }
  -- VX = VY - VX (overflowing_sub)
  | 8, _, _, 7 => do
    let x := d2
    let y := d3
    let vx ← readList e.v_registers x
    let vy ← readList e.v_registers y
    let new_vx := (vy + 256 - vx) % 256
    let new_vf := if vy < vx then 0 else 1
    let v1 ← writeList e.v_registers x new_vx
    let v2 ← writeList v1 0xF new_vf
    .ok { e with v_registers := v2 }
  -- VX <<= 1 (u8: high bit dropped)
  | 8, _, _, 0xE => do
    let x := d2
    let vx ← readList e.v_registers x
    let msb := (vx >>> 7) &&& 1
    let v1 ← writeList e.v_registers x ((vx <<< 1) % 256)
    let v2 ← writeList v1 0xF msb
    .ok { e with v_registers := v2 }
  -- SKIP VX != VY
  | 9, _, _, 0 => do
    let x := d2
    let y := d3
    let vx ← readList e.v_registers x
    let vy ← readList e.v_registers y
    if vx ≠ vy then .ok { e with pc := (e.pc + 2) % 65536 } else .ok e
  -- SET I register
  | 0xA, _, _, _ =>
    let nnn := op &&& 0xFFF
    .ok { e with i_register := nnn }
  -- B: pc = v_registers[0] + nnn
  | 0xB, _, _, _ => do
    let nnn := op &&& 0xFFF
    let v0 ← readList e.v_registers 0
    .ok { e with pc := (v0 + nnn) % 65536 }
  -- VX = rand() & NN (source masks op with 0xFFF, then casts to u8)
  | 0xC, _, _, _ => do
    let x := d2
    let nn := (op &&& 0xFFF) % 256
    let v' ← writeList e.v_registers x ((rng % 256) &&& nn)
    .ok { e with v_registers := v' }
  -- Draw Sprite XY; the collision flag is written to v_registers[0]
  -- (source lines 291 and 294), not to v_registers[0xF]
  | 0xD, _, _, _ => do
    let x_cord ← readList e.v_registers d2
    let y_cord ← readList e.v_registers d3
    let num_rows := d4
    let (display', flipped) ←
      drawYLines e.i_register x_cord y_cord e.ram (List.range num_rows) e.display false
    let v' ← writeList e.v_registers 0 (if flipped then 1 else 0)
    .ok { e with display := display', v_registers := v' }
  -- SKIP KEY PRESS (keys[vx] is bounds-checked: vx >= 16 panics)
  | 0xE, _, 9, 0xE => do
    let x := d2
    let vx ← readList e.v_registers x
    let key ← readBoolList e.keys vx
    if key then .ok { e with pc := (e.pc + 2) % 65536 } else .ok e
  -- SKIP KEY RELEASE
  | 0xE, _, 0xA, 1 => do
    let x := d2
    let vx ← readList e.v_registers x
    let key ← readBoolList e.keys vx
    if !key then .ok { e with pc := (e.pc + 2) % 65536 } else .ok e
  -- VX = DT
  | 0xF, _, 0, 7 => do
    let x := d2
    let v' ← writeList e.v_registers x e.delay_t
    .ok { e with v_registers := v' }
  -- WAIT KEY PRESS (u16 `pc -= 2` wraps in release mode)
  | 0xF, _, 0, 0xA =>
    let x := d2
    match findPressed e.keys 0 with
    | some i => do
      let v' ← writeList e.v_registers x i
      .ok { e with v_registers := v' }
    | none => .ok { e with pc := (e.pc + 65536 - 2) % 65536 }
  -- DT = VX
  | 0xF, _, 1, 5 => do
    let x := d2
    let vx ← readList e.v_registers x
    .ok { e with delay_t := vx }
  -- ST = VX
  | 0xF, _, 1, 8 => do
    let x := d2
    let vx ← readList e.v_registers x
    .ok { e with sound_t := vx }
  -- I += I.wrapping_add(VX)  (sic, source line 349: the old index is added
  -- in twice, so the result is 2*I + VX, not I + VX)
  | 0xF, _, 1, 0xE => do
    let x := d2
    let vx ← readList e.v_registers x
    .ok { e with i_register := (e.i_register + (e.i_register + vx) % 65536) % 65536 }
  -- I = FONT
  | 0xF, _, 2, 9 => do
    let x := d2
    let c ← readList e.v_registers x
    .ok { e with i_register := c * 5 % 65536 }
  -- BCD (f32 arithmetic, modelled exactly; see `f32Div`)
  | 0xF, _, 3, 3 => do
    let x := d2
    let vx ← readList e.v_registers x
    let hundreds := bcdHundreds vx
    let tens := bcdTens vx
    let ones := bcdOnes vx
    let ram1 ← writeList e.ram e.i_register hundreds
    let ram2 ← writeList ram1 ((e.i_register + 1) % 65536) tens
    let ram3 ← writeList ram2 ((e.i_register + 2) % 65536) ones
    .ok { e with ram := ram3 }
  -- STORE V0-VX
  | 0xF, _, 5, 5 => do
    let x := d2
    let i := e.i_register
    let ram' ← storeLoop i e.v_registers (List.range (x + 1)) e.ram
    .ok { e with ram := ram' }
  -- LOAD V0-VX
  | 0xF, _, 6, 5 => do
    let x := d2
    let i := e.i_register
    let v' ← loadLoop i e.ram (List.range (x + 1)) e.v_registers
    .ok { e with v_registers := v' }
  -- catch all: `unimplemented!` panics, aborting the process
  | _, _, _, _ => .error .unimplementedOpcode

/-- `Emulator::tick`: one fetch-decode-execute step. -/
def tick (e : Emulator) (rng : ℕ) : Except PanicKind Emulator := do
  let (op, e') ← e.fetch
  e'.execute op rng

end Emulator

/-!
Helper lemmas and concrete states used by the claim theorems.
-/

set_option maxRecDepth 8000

instance {ε α : Type} [DecidableEq ε] [DecidableEq α] : DecidableEq (Except ε α) := fun a b =>
  match a, b with
  | .ok x, .ok y => if h : x = y then isTrue (by rw [h]) else isFalse (by simp [h])
  | .error x, .error y => if h : x = y then isTrue (by rw [h]) else isFalse (by simp [h])
  | .ok _, .error _ => isFalse (by simp)
  | .error _, .ok _ => isFalse (by simp)

/-- An in-bounds checked read returns the element (with `getD` spelling). -/
theorem readList_eq_ok {l : List ℕ} {i : ℕ} (h : i < l.length) :
    readList l i = .ok (l.getD i 0) := by
  simp [readList, List.getElem?_eq_getElem h]

/-- Big-endian combination: shifting the high byte and or-ing in a low byte
below 256 is multiplication by 256 plus addition. -/
theorem or_eq_mul_add {hi lo : ℕ} (h : lo < 256) : (hi <<< 8) ||| lo = hi * 256 + lo := by
  rw [Nat.shiftLeft_eq, Nat.mul_comm hi (2 ^ 8), ← Nat.mul_add_lt_is_or h]

/-- An in-bounds `copyFromSlice` preserves the length. -/
theorem copyFromSlice_length {dst src : List ℕ} {start : ℕ}
    (h : start + src.length ≤ dst.length) :
    (copyFromSlice dst start src).length = dst.length := by
  simp [copyFromSlice]
  omega

theorem FONTSET_length : FONTSET.length = 80 := rfl

theorem new_ram_eq : Emulator.new.ram = copyFromSlice (List.replicate RAM_SIZE 0) 0 FONTSET := rfl

theorem new_ram_length : Emulator.new.ram.length = 4096 := by
  rw [new_ram_eq, copyFromSlice_length]
  · rw [List.length_replicate]
    rfl
  · rw [FONTSET_length, List.length_replicate]
    decide

theorem fontset_bytes : ∀ b ∈ FONTSET, b < 256 := by decide

theorem new_ram_bytes : ∀ b ∈ Emulator.new.ram, b < 256 := by
  intro b hb
  rw [new_ram_eq] at hb
  unfold copyFromSlice at hb
  rw [List.mem_append, List.mem_append] at hb
  rcases hb with (hb | hb) | hb
  · rw [List.take_zero] at hb
    exact absurd hb (List.not_mem_nil b)
  · exact fontset_bytes b hb
  · have hm := List.mem_of_mem_drop hb
    rw [List.eq_of_mem_replicate hm]
    omega

/-- Sequence of `push` calls (for the stack-discipline scenario). -/
def pushAll (e : Emulator) : List ℕ → Except PanicKind Emulator
  | [] => .ok e
  | v :: rest => do
    let e' ← e.push v
    pushAll e' rest

/-- Sequence of `pop` calls, collecting the popped values in order. -/
def popN (e : Emulator) : ℕ → Except PanicKind (List ℕ × Emulator)
  | 0 => .ok ([], e)
  | n + 1 => do
    let (v, e') ← e.pop
    let (vs, e'') ← popN e' n
    .ok (v :: vs, e'')

/-- Sixteen distinct-enough `u16` test values for the stack scenario. -/
def vals16 : List ℕ := [3, 1, 4, 1, 5, 9, 2, 6, 5, 3, 5, 8, 9, 7, 9, 300]

/-- A small concrete state for the BCD claim: `v_registers[1] = v`,
`i_register = 7`, 16 bytes of ram. -/
def bcdState (v : ℕ) : Emulator where
  pc := 0
  ram := List.replicate 16 0
  display := []
  v_registers := (List.replicate 16 0).set 1 v
  i_register := 7
  stack_ptr := 0
  stack := []
  keys := []
  delay_t := 0
  sound_t := 0

/-!
Claim theorems.
-/

/-- Claim C1 (draw-sprite collision flag).  The code stores the collision
outcome in register 0, not in register 15 (V-F): drawing the one-row fontset
sprite `0xF0` at the origin twice from the fresh state toggles the pixels and
is a collision on the second draw, yet afterwards `v_registers[0] = 1` and
`v_registers[15] = 0`, where the claim requires `V[F] = 1`. -/
theorem draw_collision_flag_written_to_v0 :
    ((Emulator.new.execute 0xD001 0).bind (fun e1 => e1.execute 0xD001 0)).map
      (fun e2 => (e2.v_registers.getD 0 0, e2.v_registers.getD 15 0)) = Except.ok (1, 0) := rfl

/-- Claim C2 (opcode `4,x,nn`).  In the fresh state `v_registers[1] = 0 = nn`
for the instruction `0x4100`, so the claim says the program counter must not
move; the code nevertheless advances it by 2, because the `(4,_,_,_)` arm
compares `v_registers[x]` with `v_registers[y]` instead of with `nn`. -/
theorem skip4_skips_on_register_equality :
    Emulator.new.v_registers.getD 1 0 = 0x00 ∧
    Emulator.new.execute 0x4100 0 = .ok { Emulator.new with pc := 514 } := ⟨rfl, rfl⟩

/-- Claim C3, counterexample.  For instruction `0x5120` in the fresh state the
compared registers are equal (`v_registers[1] = v_registers[2] = 0`), so the
claim (skip iff `V[x] ≠ V[y]`) forbids the extra advance; the code advances
`pc` by 2 anyway, because it compares `v_registers[x]` with the immediate
`nn = 0x20`. -/
theorem skip5_register_comparison_counterexample :
    Emulator.new.v_registers.getD 1 0 = Emulator.new.v_registers.getD 2 0 ∧
    Emulator.new.execute 0x5120 0 = .ok { Emulator.new with pc := 514 } := ⟨rfl, rfl⟩

/-- Claim C3, amended.  For every state with the fixed register-file size and
a non-wrapping program counter, an instruction with first nibble 5 and last
nibble 0 advances the program counter by an extra 2 if and only if
`v_registers[x]` differs from the immediate `nn` (the low 8 bits of the
instruction), and changes nothing else. -/
theorem skip5_compares_immediate (e : Emulator) (op : ℕ)
    (hd1 : (op &&& 0xF000) >>> 12 = 5) (hd4 : op &&& 0x000F = 0)
    (hv : e.v_registers.length = 16) (hpc : e.pc + 2 < 65536) :
    e.execute op 0 =
      .ok (if e.v_registers.getD ((op &&& 0x0F00) >>> 8) 0 ≠ (op &&& 0xFF)
           then { e with pc := e.pc + 2 } else e) := by
  have hx : (op &&& 0x0F00) >>> 8 < 16 := by
    have h1 : op &&& 0x0F00 ≤ 0x0F00 := Nat.and_le_right
    have h2 : (op &&& 0x0F00) >>> 8 = (op &&& 0x0F00) / 256 := by
      rw [Nat.shiftRight_eq_div_pow]
    omega
  unfold Emulator.execute
  split <;> simp_all
  all_goals
    have hlt2 : (op &&& 3840) >>> 8 < e.v_registers.length := by omega
    simp [readList_eq_ok hlt2, Bind.bind, Except.bind, Nat.mod_eq_of_lt hpc,
          List.getD_eq_getElem?_getD, List.getElem?_eq_getElem hlt2]
    split <;> simp_all

/-- Claim C3, witness: the amended theorem applied to the fresh state and
instruction `0x5120`. -/
theorem skip5_compares_immediate_witness :
    Emulator.new.execute 0x5120 0 =
      .ok (if Emulator.new.v_registers.getD ((0x5120 &&& 0x0F00) >>> 8) 0 ≠ (0x5120 &&& 0xFF)
           then { Emulator.new with pc := Emulator.new.pc + 2 } else Emulator.new) :=
  skip5_compares_immediate Emulator.new 0x5120 (by decide) (by decide) (by decide) (by decide)

/-- Claim C4 (`F,x,1,E`).  With `i_register = 1` and `v_registers[0] = 0` the
claim requires the new index `I + V[x] = 1`; the code produces 2, because the
arm computes `i_register += i_register.wrapping_add(vx)`, i.e. `2*I + V[x]`. -/
theorem add_index_doubles_index :
    ({ Emulator.new with i_register := 1 } : Emulator).v_registers.getD 0 0 = 0 ∧
    ({ Emulator.new with i_register := 1 } : Emulator).execute 0xF01E 0 =
      .ok { Emulator.new with i_register := 2 } := ⟨rfl, rfl⟩

/-- Claim C5 (program load).  For a 4096-byte ram, an image of at most 3584
bytes is copied to addresses 512..512+len with the rest of memory unchanged;
a larger image makes the slice expression panic (an index-out-of-bounds
abort), with no `CapacityExceeded` error value ever produced. -/
theorem load_spec (e : Emulator) (data : List ℕ) (h : e.ram.length = 4096) :
    (data.length ≤ 3584 →
      e.load data = .ok { e with ram := e.ram.take 512 ++ data ++ e.ram.drop (512 + data.length) }) ∧
    (3584 < data.length → e.load data = .error PanicKind.indexOutOfBounds) := by
  constructor <;> intro hlen <;>
    simp [Emulator.load, START_ADDR, copyFromSlice, h] <;> omega

/-- Claim C5, witness: loading a 3-byte image into the fresh emulator
succeeds and places the bytes at 512..515; loading 3585 bytes panics. -/
theorem load_spec_witness :
    Emulator.new.load [1, 2, 3] =
      .ok { Emulator.new with
              ram := Emulator.new.ram.take 512 ++ [1, 2, 3] ++ Emulator.new.ram.drop 515 } ∧
    Emulator.new.load (List.replicate 3585 0) = .error PanicKind.indexOutOfBounds := by
  constructor
  · have h := (load_spec Emulator.new [1, 2, 3] new_ram_length).1 (by decide)
    simpa using h
  · exact (load_spec Emulator.new (List.replicate 3585 0) new_ram_length).2
      (by rw [List.length_replicate]; decide)

/-- Claim C6 (stack discipline).  Sixteen pushes followed by sixteen pops from
the fresh state return the pushed values in exact reverse order; a seventeenth
consecutive push, and a pop on the empty stack, both end in an
index-out-of-bounds panic (the bounds check prevents access outside the
16-entry array, but no over/underflow error value is surfaced). -/
theorem stack_push_pop_eval :
    ((pushAll Emulator.new vals16).bind (fun e => popN e 16)).map Prod.fst =
      .ok vals16.reverse ∧
    pushAll Emulator.new (List.replicate 17 0) = .error PanicKind.indexOutOfBounds ∧
    Emulator.new.pop = .error PanicKind.indexOutOfBounds := ⟨rfl, rfl, rfl⟩

/-- Claim C7 (unknown opcode).  The fetched value `0x0001` matches no arm of
the dispatch table; the step ends in the `unimplemented!` panic — a process
abort — rather than an error value returned to the host. -/
theorem unknown_opcode_is_panic :
    Emulator.new.execute 0x0001 0 = .error PanicKind.unimplementedOpcode := rfl

/-- Claim C8 (fetch).  For any state whose 4096-byte ram holds bytes and whose
program counter satisfies `pc + 1 < 4096`, fetch returns
`ram[pc] * 256 + ram[pc+1]` (big-endian) and advances the program counter by
exactly 2, changing nothing else. -/
theorem fetch_spec (e : Emulator) (h4096 : e.ram.length = 4096)
    (hbytes : ∀ b ∈ e.ram, b < 256) (hpc : e.pc + 1 < 4096) :
    e.fetch = .ok (e.ram.getD e.pc 0 * 256 + e.ram.getD (e.pc + 1) 0,
                   { e with pc := e.pc + 2 }) := by
  have h1 : e.pc < e.ram.length := by omega
  have h2 : e.pc + 1 < e.ram.length := by omega
  have hm1 : (e.pc + 1) % 65536 = e.pc + 1 := Nat.mod_eq_of_lt (by omega)
  have hm2 : (e.pc + 2) % 65536 = e.pc + 2 := Nat.mod_eq_of_lt (by omega)
  have hb : (e.ram[e.pc + 1]?).getD 0 < 256 := by
    rw [List.getElem?_eq_getElem h2]
    exact hbytes _ (List.getElem_mem h2)
  simp [Emulator.fetch, hm1, hm2, readList_eq_ok h1, readList_eq_ok h2,
        Bind.bind, Except.bind]
  exact or_eq_mul_add hb

/-- Claim C8, witness: fetch on the fresh emulator (program counter 512). -/
theorem fetch_spec_witness :
    Emulator.new.fetch =
      .ok (Emulator.new.ram.getD Emulator.new.pc 0 * 256 +
             Emulator.new.ram.getD (Emulator.new.pc + 1) 0,
           { Emulator.new with pc := Emulator.new.pc + 2 }) :=
  fetch_spec Emulator.new new_ram_length new_ram_bytes (by decide)

/-- Claim C9 (BCD).  For every register value `v < 256`, executing `0xF133`
(x = 1) on `bcdState v` writes the hundreds, tens and ones decimal digits of
`v` — exactly the integer-division/modulo digits `v / 100`, `v / 10 % 10`,
`v % 10` — to `ram[I]`, `ram[I+1]`, `ram[I+2]`, although the code computes
them with (exactly modelled) `f32` arithmetic. -/
theorem bcd_digits (v : ℕ) (hv : v < 256) :
    (bcdState v).execute 0xF133 0 =
      .ok { bcdState v with
              ram := (((List.replicate 16 0).set 7 (v / 100)).set 8 (v / 10 % 10)).set 9 (v % 10) } := by
  revert v
  decide

/-- Claim C9, witness: the decomposition of 157 is 1,5,7 and of 5 is 0,0,5. -/
theorem bcd_digits_witness :
    (bcdState 157).execute 0xF133 0 =
      .ok { bcdState 157 with
              ram := (((List.replicate 16 0).set 7 1).set 8 5).set 9 7 } ∧
    (bcdState 5).execute 0xF133 0 =
      .ok { bcdState 5 with
              ram := (((List.replicate 16 0).set 7 0).set 8 0).set 9 5 } := by
  constructor
  · have h := bcd_digits 157 (by decide)
    simpa using h
  · have h := bcd_digits 5 (by decide)
    simpa using h

/-- Claim C10 (timer step).  One `tick_timers` call decrements each of the
delay and sound counters by exactly 1 when positive, leaves a zero counter at
zero, and leaves ram, all general registers, the index register, the program
counter, the stack, the stack pointer, the display and the key latch
unchanged. -/
theorem tick_timers_spec (e : Emulator) :
    e.tick_timers.delay_t = (if 0 < e.delay_t then e.delay_t - 1 else e.delay_t) ∧
    e.tick_timers.sound_t = (if 0 < e.sound_t then e.sound_t - 1 else e.sound_t) ∧
    e.tick_timers.ram = e.ram ∧ e.tick_timers.v_registers = e.v_registers ∧
    e.tick_timers.i_register = e.i_register ∧ e.tick_timers.pc = e.pc ∧
    e.tick_timers.stack = e.stack ∧ e.tick_timers.stack_ptr = e.stack_ptr ∧
    e.tick_timers.display = e.display ∧ e.tick_timers.keys = e.keys := by
  unfold Emulator.tick_timers
  split <;> split <;> simp_all
